import Mathlib

/-!
Verification development for the PPU core of the sprocketnes emulator
(src/ppu.rs).  Machine integers are modelled as `Nat` with explicit masking
(`% 256` for `u8` loads, `% 65536` where `u16` arithmetic can wrap).  The
byte stores (CHR ROM, nametables, palette RAM, OAM, the frame buffer) are
modelled as functions `Nat → Nat`; fallible operations (`fail!` paths in the
source) return `Option`.
-/

/-- Pointwise update of a byte store. -/
def upd (f : Nat → Nat) (i v : Nat) : Nat → Nat :=
  fun j => if j = i then v else f j

-- Constants (src/ppu.rs lines 17-21)

def SCREEN_WIDTH : Nat := 256
def SCREEN_HEIGHT : Nat := 240
def CYCLES_PER_SCANLINE : Nat := 114
def VBLANK_SCANLINE : Nat := 241
def LAST_SCANLINE : Nat := 261

/-- The static 64-entry RGB lookup table (192 bytes, src/ppu.rs lines 23-40). -/
def PALETTE : List Nat := [
  124,124,124,    0,0,252,        0,0,188,        68,40,188,
  148,0,132,      168,0,32,       168,16,0,       136,20,0,
  80,48,0,        0,120,0,        0,104,0,        0,88,0,
  0,64,88,        0,0,0,          0,0,0,          0,0,0,
  188,188,188,    0,120,248,      0,88,248,       104,68,252,
  216,0,204,      228,0,88,       248,56,0,       228,92,16,
  172,124,0,      0,184,0,        0,168,0,        0,168,68,
  0,136,136,      0,0,0,          0,0,0,          0,0,0,
  248,248,248,    60,188,252,     104,136,252,    152,120,248,
  248,120,248,    248,88,152,     248,120,88,     252,160,68,
  248,184,0,      184,248,24,     88,216,84,      88,248,152,
  0,232,216,      120,120,120,    0,0,0,          0,0,0,
  252,252,252,    164,228,252,    184,184,248,    216,184,248,
  248,184,248,    248,164,192,    240,208,176,    252,224,168,
  248,216,120,    216,248,120,    184,248,184,    184,248,216,
  0,252,252,      248,216,248,    0,0,0,          0,0,0]

-- PPUCTRL accessors (src/ppu.rs lines 66-76); the register byte is a Nat.

inductive SpriteSize where
  | SpriteSize8x8
  | SpriteSize8x16
deriving DecidableEq

def PpuCtrl.x_scroll_offset (c : Nat) : Nat := if c &&& 0x01 = 0 then 0 else 256

def PpuCtrl.y_scroll_offset (c : Nat) : Nat := if c &&& 0x02 = 0 then 0 else 240

def PpuCtrl.vram_addr_increment (c : Nat) : Nat := if c &&& 0x04 = 0 then 1 else 32

def PpuCtrl.sprite_pattern_table_addr (c : Nat) : Nat := if c &&& 0x08 = 0 then 0 else 0x1000

def PpuCtrl.background_pattern_table_addr (c : Nat) : Nat := if c &&& 0x10 = 0 then 0 else 0x1000

def PpuCtrl.sprite_size (c : Nat) : SpriteSize :=
  if c &&& 0x20 = 0 then .SpriteSize8x8 else .SpriteSize8x16

def PpuCtrl.vblank_nmi (c : Nat) : Bool := c &&& 0x80 != 0

-- PPUMASK accessors (src/ppu.rs lines 84-93)

def PpuMask.show_background (m : Nat) : Bool := m &&& 0x08 != 0

def PpuMask.show_sprites (m : Nat) : Bool := m &&& 0x10 != 0

-- PPUSTATUS setters (src/ppu.rs lines 101-112); `!mask` on u8 is its
-- 8-bit complement.

def PpuStatus.set_sprite_overflow (s : Nat) (val : Bool) : Nat :=
  if val then s ||| 0x20 else s &&& 0xdf

def PpuStatus.set_sprite_zero_hit (s : Nat) (val : Bool) : Nat :=
  if val then s ||| 0x40 else s &&& 0xbf

def PpuStatus.set_in_vblank (s : Nat) (val : Bool) : Nat :=
  if val then s ||| 0x80 else s &&& 0x7f

-- Register bank (src/ppu.rs lines 46-53, 118-141)

inductive PpuScrollDir where
  | XDir
  | YDir
deriving DecidableEq

structure PpuScroll where
  x : Nat
  y : Nat
  next : PpuScrollDir
deriving DecidableEq

inductive PpuAddrByte where
  | Hi
  | Lo
deriving DecidableEq

structure PpuAddr where
  val : Nat
  next : PpuAddrByte
deriving DecidableEq

structure Regs where
  ctrl : Nat
  mask : Nat
  status : Nat
  oam_addr : Nat
  scroll : PpuScroll
  addr : PpuAddr
deriving DecidableEq

-- VRAM (src/ppu.rs lines 145-185).  The cartridge CHR data is an external
-- read-only byte source.

structure Rom where
  chr : Nat → Nat

structure Vram where
  rom : Rom
  nametables : Nat → Nat
  palette : Nat → Nat

def Vram.new (rom : Rom) : Vram :=
  { rom := rom, nametables := fun _ => 0, palette := fun _ => 0 }

/-- VRAM load (src/ppu.rs lines 159-169).  An address at or above 0x4000
hits the `fail!` arm, modelled as `none`.  Backing bytes are `u8`,
hence the `% 256`. -/
def Vram.loadb (v : Vram) (addr : Nat) : Option Nat :=
  if addr < 0x2000 then some (v.rom.chr addr % 256)
  else if addr < 0x3f00 then some (v.nametables (addr &&& 0x07ff) % 256)
  else if addr < 0x4000 then some (v.palette (addr &&& 0x1f) % 256)
  else none

/-- Total view of `Vram.loadb`, used by the renderer whose addresses are
always below 0x4000 by construction. -/
def Vram.loadv (v : Vram) (addr : Nat) : Nat :=
  (v.loadb addr).getD 0

/-- VRAM store (src/ppu.rs lines 170-184).  Writes below 0x2000 are ignored
(CHR-ROM); palette index 0x10 is redirected to 0x00; the source has no
else-arm, so an address at or above 0x4000 falls through and the store is
silently ignored. -/
def Vram.storeb (v : Vram) (addr : Nat) (val : Nat) : Vram :=
  if addr < 0x2000 then v
  else if addr < 0x3f00 then
    { v with nametables := upd v.nametables (addr &&& 0x07ff) val }
  else if addr < 0x4000 then
    let a := addr &&& 0x1f
    let a := if a = 0x10 then 0x00 else a
    { v with palette := upd v.palette a val }
  else v

-- OAM (src/ppu.rs lines 191-204)

structure Oam where
  oam : Nat → Nat

def Oam.new : Oam := { oam := fun _ => 0 }

def Oam.loadb (o : Oam) (addr : Nat) : Nat := o.oam addr % 256

def Oam.storeb (o : Oam) (addr : Nat) (val : Nat) : Oam :=
  { oam := upd o.oam addr val }

-- Sprites (src/ppu.rs lines 206-256)

structure Sprite where
  x : Nat
  y : Nat
  tile_index_byte : Nat
  attribute_byte : Nat
deriving DecidableEq

inductive SpriteTiles where
  | SpriteTiles8x8 (tile : Nat)
  | SpriteTiles8x16 (first second : Nat)
deriving DecidableEq

inductive SpritePriority where
  | AboveBg
  | BelowBg
deriving DecidableEq

-- The main PPU state (src/ppu.rs lines 260-275).  The frame buffer
-- `screen` is a byte store indexed as (y * SCREEN_WIDTH + x) * 3 + channel.

structure Ppu where
  regs : Regs
  vram : Vram
  oam : Oam
  screen : Nat → Nat
  scanline : Nat
  ppudata_buffer : Nat
  scroll_x : Nat
  scroll_y : Nat
  cy : Nat

def Ppu.new (vram : Vram) (oam : Oam) : Ppu :=
  { regs :=
      { ctrl := 0, mask := 0, status := 0, oam_addr := 0,
        scroll := { x := 0, y := 0, next := .XDir },
        addr := { val := 0, next := .Hi } },
    vram := vram, oam := oam,
    screen := fun _ => 0,
    scanline := 0, ppudata_buffer := 0,
    scroll_x := 0, scroll_y := 0, cy := 0 }

-- Sprite methods (src/ppu.rs lines 219-255)

def Sprite.tiles (s : Sprite) (p : Ppu) : SpriteTiles :=
  let base := PpuCtrl.sprite_pattern_table_addr p.regs.ctrl
  match PpuCtrl.sprite_size p.regs.ctrl with
  | .SpriteSize8x8 => .SpriteTiles8x8 (s.tile_index_byte ||| base)
  | .SpriteSize8x16 =>
    let first :=
      (s.tile_index_byte &&& 0xfe) + (if s.tile_index_byte &&& 1 ≠ 0 then 0x1000 else 0)
    .SpriteTiles8x16 first (first + 1)

def Sprite.palette (s : Sprite) : Nat := (s.attribute_byte &&& 3) + 4

def Sprite.flip_horizontal (s : Sprite) : Bool := s.attribute_byte &&& 0x40 != 0

def Sprite.flip_vertical (s : Sprite) : Bool := s.attribute_byte &&& 0x80 != 0

def Sprite.priority (s : Sprite) : SpritePriority :=
  if s.attribute_byte &&& 0x20 = 0 then .AboveBg else .BelowBg

/-- Quick test whether this sprite is on the given scanline
(src/ppu.rs lines 244-250); `y` and `self.y` are `u8`, so the additions
wrap at 256. -/
def Sprite.on_scanline (s : Sprite) (p : Ppu) (y : Nat) : Bool :=
  if y < s.y then false
  else match PpuCtrl.sprite_size p.regs.ctrl with
    | .SpriteSize8x8 => y < (s.y + 8) % 256
    | .SpriteSize8x16 => y < (s.y + 16) % 256

def Sprite.in_bounding_box (s : Sprite) (p : Ppu) (x y : Nat) : Bool :=
  decide (x ≥ s.x) && decide (x < (s.x + 8) % 256) && s.on_scanline p y

-- StepResult (src/ppu.rs lines 311-315)

structure StepResult where
  new_frame : Bool
  vblank_nmi : Bool
deriving DecidableEq

structure Rgb where
  r : Nat
  g : Nat
  b : Nat
deriving DecidableEq

inductive PatternPixelKind where
  | Background
  | Sprite

structure NametableAddr where
  base : Nat
  x_index : Nat
  y_index : Nat

structure SpriteColor where
  priority : SpritePriority
  color : Rgb
deriving DecidableEq

/-- Color lookup (src/ppu.rs lines 373-380): note that the red channel is
read from offset +2 and blue from +0, exactly as the source does. -/
def get_color (palette_index : Nat) : Rgb :=
  { r := PALETTE.getD (palette_index * 3 + 2) 0,
    g := PALETTE.getD (palette_index * 3 + 1) 0,
    b := PALETTE.getD (palette_index * 3 + 0) 0 }

-- Register manipulation (src/ppu.rs lines 386-462)

def update_ppuctrl (p : Ppu) (val : Nat) : Ppu :=
  { p with
    regs := { p.regs with ctrl := val },
    scroll_x := (p.scroll_x &&& 0xff) ||| PpuCtrl.x_scroll_offset val,
    scroll_y := (p.scroll_y &&& 0xff) ||| PpuCtrl.y_scroll_offset val }

def update_ppuscroll (p : Ppu) (val : Nat) : Ppu :=
  match p.regs.scroll.next with
  | .XDir =>
    { p with
      scroll_x := (p.scroll_x &&& 0xff00) ||| val,
      regs := { p.regs with scroll := { x := val, y := p.regs.scroll.y, next := .YDir } } }
  | .YDir =>
    { p with
      scroll_y := (p.scroll_y &&& 0xff00) ||| val,
      regs := { p.regs with scroll := { x := p.regs.scroll.x, y := val, next := .XDir } } }

def write_oamdata (p : Ppu) (val : Nat) : Ppu :=
  { p with
    oam := p.oam.storeb p.regs.oam_addr val,
    regs := { p.regs with oam_addr := (p.regs.oam_addr + 1) % 256 } }

def update_ppuaddr (p : Ppu) (val : Nat) : Ppu :=
  match p.regs.addr.next with
  | .Hi =>
    { p with
      regs := { p.regs with
        addr := { val := (p.regs.addr.val &&& 0x00ff) ||| (val <<< 8), next := .Lo } } }
  | .Lo =>
    let new_val := (p.regs.addr.val &&& 0xff00) ||| val
    let addr := new_val &&& 0x07ff
    let xscroll_base : Nat := if addr < 0x400 then 0 else 256
    { p with
      regs := { p.regs with addr := { val := new_val, next := .Hi } },
      scroll_x := (p.scroll_x &&& 0xff) ||| xscroll_base }

/-- Status read (src/ppu.rs lines 436-442): resets both latches and returns
the status byte. -/
def read_ppustatus (p : Ppu) : Nat × Ppu :=
  (p.regs.status,
   { p with regs := { p.regs with
       scroll := { p.regs.scroll with next := .XDir },
       addr := { p.regs.addr with next := .Hi } } })

def write_ppudata (p : Ppu) (val : Nat) : Ppu :=
  { p with
    vram := p.vram.storeb p.regs.addr.val val,
    regs := { p.regs with
      addr := { p.regs.addr with
        val := (p.regs.addr.val + PpuCtrl.vram_addr_increment p.regs.ctrl) % 65536 } } }

/-- PPUDATA read with the one-read-behind buffering quirk
(src/ppu.rs lines 449-462). -/
def read_ppudata (p : Ppu) : Option (Nat × Ppu) :=
  let addr := p.regs.addr.val
  match p.vram.loadb addr with
  | none => none
  | some val =>
    let p1 := { p with regs := { p.regs with
      addr := { p.regs.addr with
        val := (p.regs.addr.val + PpuCtrl.vram_addr_increment p.regs.ctrl) % 65536 } } }
    if addr < 0x3f00 then
      some (p1.ppudata_buffer, { p1 with ppudata_buffer := val })
    else
      some (val, p1)

-- Background rendering helpers (src/ppu.rs lines 468-504)

def nametable_addr (x_index y_index : Nat) : NametableAddr :=
  let x_index := x_index % 64
  let y_index := y_index % 60
  let nametable_base : Nat :=
    if x_index ≥ 32 then (if y_index ≥ 30 then 0x2c00 else 0x2400)
    else (if y_index ≥ 30 then 0x2800 else 0x2000)
  { base := nametable_base, x_index := x_index % 32, y_index := y_index % 30 }

def make_sprite_info (p : Ppu) (index : Nat) : Sprite :=
  { y := (p.oam.loadb (index * 4 + 0) + 1) % 256,
    tile_index_byte := p.oam.loadb (index * 4 + 1),
    attribute_byte := p.oam.loadb (index * 4 + 2),
    x := p.oam.loadb (index * 4 + 3) }

-- Rendering (src/ppu.rs lines 510-679)

def putpixel (p : Ppu) (x y : Nat) (color : Rgb) : Ppu :=
  let base := (y * SCREEN_WIDTH + x) * 3
  let s1 := upd p.screen (base + 0) color.r
  let s2 := upd s1 (base + 1) color.g
  let s3 := upd s2 (base + 2) color.b
  { p with screen := s3 }

/-- Pre-palette color of pixel (x,y) inside a tile
(src/ppu.rs lines 519-533). -/
def get_pattern_pixel (p : Ppu) (kind : PatternPixelKind) (tile x y : Nat) : Nat :=
  let pattern_offset := ((tile <<< 4) + y) % 65536
  let pattern_offset :=
    match kind with
    | .Background => (pattern_offset + PpuCtrl.background_pattern_table_addr p.regs.ctrl) % 65536
    | .Sprite => (pattern_offset + PpuCtrl.sprite_pattern_table_addr p.regs.ctrl) % 65536
  let plane0 := p.vram.loadv pattern_offset
  let plane1 := p.vram.loadv ((pattern_offset + 8) % 65536)
  let bit0 := (plane0 >>> (7 - x % 8)) &&& 1
  let bit1 := (plane1 >>> (7 - x % 8)) &&& 1
  (bit1 <<< 1) ||| bit0

/-- Background pixel resolution (src/ppu.rs lines 537-570); returns `none`
when the pattern color is 0 (transparent). -/
def get_background_pixel (p : Ppu) (x : Nat) : Option Rgb :=
  let x := (x + p.scroll_x) % 65536
  let y := (p.scanline + p.scroll_y) % 65536
  let nta := nametable_addr (x / 8) (y / 8)
  let xsub := x % 8
  let ysub := y % 8
  let tile := p.vram.loadv (nta.base + 32 * nta.y_index + nta.x_index)
  let pattern_color := get_pattern_pixel p .Background tile xsub ysub
  if pattern_color = 0 then none
  else
    let group := nta.y_index / 4 * 8 + nta.x_index / 4
    let attr_byte := p.vram.loadv (nta.base + 0x3c0 + group)
    let left := nta.x_index % 4 < 2
    let top := nta.y_index % 4 < 2
    let attr_table_color :=
      if left then (if top then attr_byte &&& 0x3 else (attr_byte >>> 4) &&& 0x3)
      else (if top then (attr_byte >>> 2) &&& 0x3 else (attr_byte >>> 6) &&& 0x3)
    let tile_color := (attr_table_color <<< 2) ||| pattern_color
    let palette_index := (p.vram.loadv (0x3f00 + tile_color)) &&& 0x3f
    some (get_color palette_index)

/-- Sprite pixel resolution (src/ppu.rs lines 572-628): walks the visible
sprite list; a `none` slot ends the walk; 8x16 rendering is the source's
`fail!` arm, modelled as `none` (fatal).  May set the sprite-zero-hit
status bit. -/
def get_sprite_pixel (p : Ppu) (vs : List (Option Nat)) (x : Nat)
    (background_opq : Bool) : Option (Option SpriteColor × Ppu) :=
  match vs with
  | [] => some (none, p)
  | none :: _ => some (none, p)
  | some index :: rest =>
    let sprite := make_sprite_info p index
    if ¬ sprite.in_bounding_box p x (p.scanline % 256) then
      get_sprite_pixel p rest x background_opq
    else
      match sprite.tiles p with
      | .SpriteTiles8x16 _ _ => none
      | .SpriteTiles8x8 tile =>
        let x1 := x - sprite.x
        let x2 := if sprite.flip_horizontal then 7 - x1 else x1
        let y1 := p.scanline % 256 - sprite.y
        let y2 := if sprite.flip_vertical then 7 - y1 else y1
        let pattern_color := get_pattern_pixel p .Sprite tile x2 y2
        if pattern_color = 0 then
          get_sprite_pixel p rest x background_opq
        else
          let p1 :=
            if index = 0 && background_opq then
              { p with regs := { p.regs with
                  status := PpuStatus.set_sprite_zero_hit p.regs.status true } }
            else p
          let tile_color := (sprite.palette <<< 2) ||| pattern_color
          let palette_index := (p1.vram.loadv (0x3f00 + tile_color)) &&& 0x3f
          some (some { priority := sprite.priority, color := get_color palette_index }, p1)

/-- Scanline sprite evaluation loop (src/ppu.rs lines 630-645): scans the
given OAM slot indices in order; on the 9th qualifying sprite sets the
overflow status flag and stops. -/
def cvs_aux (p : Ppu) : List Nat → Nat → List (Option Nat) → List (Option Nat) × Ppu
  | [], _, result => (result, p)
  | i :: rest, count, result =>
    if Sprite.on_scanline (make_sprite_info p i) p (p.scanline % 256) then
      if count < 8 then cvs_aux p rest (count + 1) (result.set count (some i))
      else (result,
        { p with regs := { p.regs with
            status := PpuStatus.set_sprite_overflow p.regs.status true } })
    else cvs_aux p rest count result

def compute_visible_sprites (p : Ppu) : List (Option Nat) × Ppu :=
  cvs_aux p (List.range 64) 0 (List.replicate 8 none)

/-- The backdrop color used when neither layer is opaque: palette RAM
index 0 read from VRAM address 0x3F00, masked to 6 bits
(src/ppu.rs lines 651-652). -/
def backdrop_color (p : Ppu) : Rgb :=
  get_color ((p.vram.loadv 0x3f00) &&& 0x3f)

/-- Per-pixel priority compositing, the match of src/ppu.rs lines 669-675,
arms in source order. -/
def combine_colors (background_color : Option Rgb) (sprite_color : Option SpriteColor)
    (backdrop : Rgb) : Rgb :=
  match background_color, sprite_color with
  | none, none => backdrop
  | some color, none => color
  | some color, some { priority := SpritePriority.BelowBg, color := _ } => color
  | none, some { priority := SpritePriority.BelowBg, color := color } => color
  | _, some { priority := SpritePriority.AboveBg, color := color } => color

/-- One column of the render loop body (src/ppu.rs lines 654-678). -/
def render_pixel (vs : List (Option Nat)) (backdrop : Rgb) (p : Ppu) (x : Nat) :
    Option Ppu :=
  let background_color :=
    if PpuMask.show_background p.regs.mask then get_background_pixel p (x % 256) else none
  match (if PpuMask.show_sprites p.regs.mask
         then get_sprite_pixel p vs (x % 256) background_color.isSome
         else some (none, p)) with
  | none => none
  | some (sprite_color, p1) =>
    some (putpixel p1 x p1.scanline (combine_colors background_color sprite_color backdrop))

def render_loop (vs : List (Option Nat)) (backdrop : Rgb) :
    Ppu → List Nat → Option Ppu
  | p, [] => some p
  | p, x :: xs =>
    match render_pixel vs backdrop p x with
    | none => none
    | some p1 => render_loop vs backdrop p1 xs

/-- Renders one scanline into the frame buffer (src/ppu.rs lines 647-679). -/
def render_scanline (p : Ppu) : Option Ppu :=
  let cvs := compute_visible_sprites p
  render_loop cvs.1 (backdrop_color cvs.2) cvs.2 (List.range SCREEN_WIDTH)

-- Timing state machine (src/ppu.rs lines 681-721)

def start_vblank (p : Ppu) (result : StepResult) : Ppu × StepResult :=
  let s1 := PpuStatus.set_in_vblank p.regs.status true
  let s2 := PpuStatus.set_sprite_zero_hit s1 false
  ({ p with regs := { p.regs with status := s2 } },
   if PpuCtrl.vblank_nmi p.regs.ctrl then { result with vblank_nmi := true } else result)

/-- The scanline-increment part of the step loop body
(src/ppu.rs lines 706-713): increments the scanline (u16), enters vblank
at scanline 241, and wraps the frame at scanline 261. -/
def scanline_advance (p : Ppu) (result : StepResult) : Ppu × StepResult :=
  let p2 := { p with scanline := (p.scanline + 1) % 65536 }
  if p2.scanline = VBLANK_SCANLINE then start_vblank p2 result
  else if p2.scanline = LAST_SCANLINE then
    let regs3 := { p2.regs with status := PpuStatus.set_in_vblank p2.regs.status false }
    ({ p2 with scanline := 0, regs := regs3 }, { result with new_frame := true })
  else (p2, result)

/-- One iteration of the step loop (src/ppu.rs lines 702-715): render the
current scanline if visible, advance the scanline, bump the cycle
counter. -/
def step_body (p : Ppu) (result : StepResult) : Option (Ppu × StepResult) :=
  match (if p.scanline < SCREEN_HEIGHT then render_scanline p else some p) with
  | none => none
  | some p1 =>
    let pr := scanline_advance p1 result
    some ({ pr.1 with cy := pr.1.cy + CYCLES_PER_SCANLINE }, pr.2)

/-- The step loop (src/ppu.rs lines 696-718), iterated on explicit fuel.
Each iteration advances `cy` by `CYCLES_PER_SCANLINE ≥ 1`, so with the fuel
chosen in `step` the fuel never runs out before the loop's natural exit
condition `cy + CYCLES_PER_SCANLINE > run_to_cycle`. -/
def step_go : Nat → Nat → Ppu → StepResult → Option (Ppu × StepResult)
  | 0, _, p, result => some (p, result)
  | fuel + 1, run_to_cycle, p, result =>
    if p.cy + CYCLES_PER_SCANLINE > run_to_cycle then some (p, result)
    else match step_body p result with
      | none => none
      | some (p1, r1) => step_go fuel run_to_cycle p1 r1

def step (p : Ppu) (run_to_cycle : Nat) : Option (Ppu × StepResult) :=
  step_go (run_to_cycle + 1 - p.cy) run_to_cycle p { new_frame := false, vblank_nmi := false }

/-- Drives `step` one scanline quantum at a time, recording each call's
result together with the vblank status bit after the call. -/
def frame_trace : Ppu → Nat → Option (List (StepResult × Bool))
  | _, 0 => some []
  | p, n + 1 =>
    match step p (p.cy + CYCLES_PER_SCANLINE) with
    | none => none
    | some (p1, r) =>
      match frame_trace p1 n with
      | none => none
      | some rest => some ((r, p1.regs.status.testBit 7) :: rest)

-- Specification-level iterators for the scanline counter and the vblank
-- bit across per-scanline step calls.

def sl_next (s : Nat) : Nat :=
  if (s + 1) % 65536 = LAST_SCANLINE then 0 else (s + 1) % 65536

def sl_at (s0 : Nat) : Nat → Nat
  | 0 => s0
  | n + 1 => sl_next (sl_at s0 n)

def vb_next (s : Nat) (b : Bool) : Bool :=
  if (s + 1) % 65536 = VBLANK_SCANLINE then true
  else if (s + 1) % 65536 = LAST_SCANLINE then false
  else b

def vb_at (s0 : Nat) (b0 : Bool) : Nat → Bool
  | 0 => b0
  | n + 1 => vb_next (sl_at s0 n) (vb_at s0 b0 n)

def trace_dflt : StepResult × Bool := ({ new_frame := false, vblank_nmi := false }, false)

/-- Indices of step calls that reported frame completion. -/
def new_frame_idxs (l : List (StepResult × Bool)) : List Nat :=
  (List.range l.length).filter (fun j => ((l.getD j trace_dflt).1).new_frame)

/-- Indices of step calls across which the vblank status bit rose from
clear to set. -/
def vblank_rises (init : Bool) (l : List (StepResult × Bool)) : List Nat :=
  (List.range l.length).filter (fun j =>
    ((l.getD j trace_dflt).2) && !(if j = 0 then init else (l.getD (j - 1) trace_dflt).2))

/-- Slots qualifying for the current scanline, in scan (slot) order. -/
def qualifying_sprites (p : Ppu) : List Nat :=
  (List.range 64).filter
    (fun i => Sprite.on_scanline (make_sprite_info p i) p (p.scanline % 256))

/-- The visible-sprite result list holding the given found slots in order,
padded with `none`. -/
def fill_slots (found : List Nat) : List (Option Nat) :=
  found.map some ++ List.replicate (8 - found.length) none

/-- Reading of claim C8's words, for comparison with `update_ppuctrl`: the
bits of the ctrl-selected offset region (bit 8 for X, the bits of 240 for
Y) are recomputed from ctrl and all remaining accumulator bits are left
unchanged. -/
def update_ppuctrl_claim (p : Ppu) (val : Nat) : Ppu :=
  { p with
    regs := { p.regs with ctrl := val },
    scroll_x := (p.scroll_x &&& 0xfeff) ||| PpuCtrl.x_scroll_offset val,
    scroll_y := (p.scroll_y &&& 0xff0f) ||| PpuCtrl.y_scroll_offset val }

-- Concrete states used by witnesses and counterexamples.

def rom0 : Rom := { chr := fun _ => 0 }

def vram0 : Vram := Vram.new rom0

def ppu0 : Ppu := Ppu.new vram0 Oam.new

/-- OAM with slot 0 = (y=11, tile=1, attribute=0, x=5), as in claim C4. -/
def oamC4 : Oam :=
  { oam := fun i =>
      if i = 0 then 11 else if i = 1 then 1 else if i = 2 then 0
      else if i = 3 then 5 else 0 }

def ppuC4 : Ppu := Ppu.new vram0 oamC4

/-- A state whose scroll_x accumulator has a bit above the low byte and
above the ctrl X offset bit (bit 9). -/
def ppuC8 : Ppu := { ppu0 with scroll_x := 0x200 }

/-- A state sitting on scanline 1, where every all-zero OAM sprite (y
field 0, decoded y = 1) is on the scanline. -/
def ppuC5 : Ppu := { ppu0 with scanline := 1 }

-- Bitwise helper lemmas

theorem and_255 (x : Nat) : x &&& 255 = x % 256 := by
  have h := Nat.and_pow_two_sub_one_eq_mod x 8
  norm_num at h
  exact h

theorem and_2047 (x : Nat) : x &&& 2047 = x % 2048 := by
  have h := Nat.and_pow_two_sub_one_eq_mod x 11
  norm_num at h
  exact h

theorem xor_800_and_7ff (a : Nat) : (a ^^^ 0x800) &&& 0x7ff = a &&& 0x7ff := by
  apply Nat.eq_of_testBit_eq
  intro i
  have h7ff : Nat.testBit 0x7ff i = decide (i < 11) := by
    have h := Nat.testBit_two_pow_sub_one 11 i
    norm_num at h ⊢
    exact h
  by_cases hi : i < 11
  · have h800 : Nat.testBit 0x800 i = false := by
      have h := Nat.testBit_two_pow_of_ne (n := 11) (m := i) (by omega)
      norm_num at h ⊢
      exact h
    simp [Nat.testBit_and, Nat.testBit_xor, h800]
  · simp [Nat.testBit_and, h7ff, hi]

/-- C1: the per-pixel compositing decision table of `render_scanline`: with
neither layer opaque the pixel gets the backdrop color read from palette RAM
index 0 (VRAM address 0x3F00); background only gives the background color;
sprite only gives that sprite's color; with both opaque the sprite color wins
when the sprite priority is above-background and the background color wins
when it is below-background. -/
theorem claim_c1_compositing (p : Ppu) (b c sc : Rgb) (pr : SpritePriority) :
    backdrop_color p = get_color ((Vram.loadv p.vram 0x3f00) &&& 0x3f) ∧
    combine_colors none none (backdrop_color p) = backdrop_color p ∧
    combine_colors (some c) none b = c ∧
    combine_colors none (some { priority := pr, color := sc }) b = sc ∧
    combine_colors (some c) (some { priority := SpritePriority.AboveBg, color := sc }) b = sc ∧
    combine_colors (some c) (some { priority := SpritePriority.BelowBg, color := sc }) b = c := by
  refine ⟨rfl, rfl, rfl, ?_, rfl, rfl⟩
  cases pr <;> rfl

/-- C4 counterexample: the sprite decoded from OAM slot 0 with stored Y
field 11 has decoded y = 12, so `on_scanline 11` is false (the claim says
true) and `on_scanline 19` is true (the claim says false). -/
theorem claim_c4_cex :
    ¬ (Sprite.on_scanline (make_sprite_info ppuC4 0) ppuC4 10 = false ∧
       Sprite.on_scanline (make_sprite_info ppuC4 0) ppuC4 11 = true ∧
       Sprite.on_scanline (make_sprite_info ppuC4 0) ppuC4 18 = true ∧
       Sprite.on_scanline (make_sprite_info ppuC4 0) ppuC4 19 = false) := by
  decide

/-- C4 amended: the decoder adds one to the stored Y field (decoded sprite
is (y=12, tile=1, attribute=0, x=5)), so under 8x8 size the sprite is on
scanlines 12..19: `on_scanline` is false at 10 and 11 and true at 12, 18
and 19. -/
theorem claim_c4_amended :
    make_sprite_info ppuC4 0 =
      { y := 12, tile_index_byte := 1, attribute_byte := 0, x := 5 } ∧
    Sprite.on_scanline (make_sprite_info ppuC4 0) ppuC4 10 = false ∧
    Sprite.on_scanline (make_sprite_info ppuC4 0) ppuC4 11 = false ∧
    Sprite.on_scanline (make_sprite_info ppuC4 0) ppuC4 12 = true ∧
    Sprite.on_scanline (make_sprite_info ppuC4 0) ppuC4 18 = true ∧
    Sprite.on_scanline (make_sprite_info ppuC4 0) ppuC4 19 = true := by
  refine ⟨?_, ?_, ?_, ?_, ?_, ?_⟩ <;> decide

/-- C9 counterexample: a store at address 0x4000 does not signal a fatal
error; it falls through the if-chain of `Vram.storeb` and completes as a
silent no-op, contradicting the claim that the store halts. -/
theorem claim_c9_cex : Vram.storeb vram0 0x4000 5 = vram0 := rfl

/-- C9 amended: for every address at or above 0x4000 the VRAM load signals
the fatal `fail!` error (modelled as `none`), while the VRAM store silently
ignores the access, leaving the store unchanged. -/
theorem claim_c9_amended (vm : Vram) (addr val : Nat) (h : 0x4000 ≤ addr) :
    Vram.loadb vm addr = none ∧ Vram.storeb vm addr val = vm := by
  constructor
  · unfold Vram.loadb
    rw [if_neg (by omega), if_neg (by omega), if_neg (by omega)]
  · unfold Vram.storeb
    rw [if_neg (by omega), if_neg (by omega), if_neg (by omega)]

theorem claim_c9_witness :
    (0x4000 : Nat) ≤ 0x4123 ∧
    (Vram.loadb vram0 0x4123 = none ∧ Vram.storeb vram0 0x4123 9 = vram0) :=
  ⟨by decide, claim_c9_amended vram0 0x4123 9 (by decide)⟩

/-- C3 counterexample: palette loads return the raw stored byte (no 6-bit
masking in `Vram.loadb`; masking happens at the render call sites), so
storing 0xFF at 0x3F10 and loading 0x3F00 yields 0xFF, not 0xFF &&& 0x3F. -/
theorem claim_c3_cex :
    Vram.loadb (Vram.storeb vram0 0x3f10 0xff) 0x3f00 = some 0xff ∧
    (0xff : Nat) ≠ 0xff &&& 0x3f := by
  exact ⟨rfl, by decide⟩

/-- C3 amended: storing byte V at 0x3F10 redirects to palette cell 0x00, so
a load at 0x3F00 yields V itself (the 6-bit masking the claim mentions is
applied by the renderer, not by the VRAM load); the alias is one-directional:
neither a store at 0x3F00 nor one at 0x3F10 changes palette cell 0x10, and a
load at 0x3F10 returns cell 0x10's own content. -/
theorem claim_c3_amended (vm : Vram) (v w : Nat) (hv : v < 256) :
    Vram.loadb (Vram.storeb vm 0x3f10 v) 0x3f00 = some v ∧
    (Vram.storeb vm 0x3f00 w).palette 0x10 = vm.palette 0x10 ∧
    (Vram.storeb vm 0x3f10 v).palette 0x10 = vm.palette 0x10 ∧
    Vram.loadb vm 0x3f10 = some (vm.palette 0x10 % 256) := by
  refine ⟨?_, ?_, ?_, ?_⟩
  · show some ((upd vm.palette 0 v) 0 % 256) = some v
    simp [upd, Nat.mod_eq_of_lt hv]
  · show (upd vm.palette 0 w) 0x10 = vm.palette 0x10
    simp [upd]
  · show (upd vm.palette 0 v) 0x10 = vm.palette 0x10
    simp [upd]
  · rfl

theorem claim_c3_witness :
    (0x2a : Nat) < 256 ∧
    (Vram.loadb (Vram.storeb vram0 0x3f10 0x2a) 0x3f00 = some 0x2a ∧
     (Vram.storeb vram0 0x3f00 7).palette 0x10 = vram0.palette 0x10 ∧
     (Vram.storeb vram0 0x3f10 0x2a).palette 0x10 = vram0.palette 0x10 ∧
     Vram.loadb vram0 0x3f10 = some (vram0.palette 0x10 % 256)) :=
  ⟨by decide, claim_c3_amended vram0 0x2a 7 (by decide)⟩

/-- C8 counterexample: `update_ppuctrl` rebuilds the accumulator as
(accumulator &&& 0xFF) ||| offset, so a bit above the low byte that is not
part of the ctrl offset (here bit 9 of scroll_x) is cleared rather than
left unchanged, contradicting the claim's "leaving the remainder of each
accumulator unchanged" (formalised by `update_ppuctrl_claim`). -/
theorem claim_c8_cex :
    (update_ppuctrl ppuC8 0).scroll_x = 0 ∧
    (update_ppuctrl_claim ppuC8 0).scroll_x = 0x200 ∧
    (update_ppuctrl ppuC8 0).scroll_x ≠ (update_ppuctrl_claim ppuC8 0).scroll_x := by
  refine ⟨?_, ?_, ?_⟩ <;> decide

/-- C8 amended: a store to register index 0 replaces ctrl and immediately
recomputes each scroll accumulator as (accumulator &&& 0xFF) ||| offset,
where ctrl bit 0 selects an X offset of 0 or 256 and ctrl bit 1 a Y offset
of 0 or 240: the low byte of the accumulator is kept (for X it is left
unchanged, as the last conjunct states), every bit above the low byte is
replaced by the offset, and the Y offset 240 is OR-ed into the kept low
byte's bits 4-7. -/
theorem claim_c8_amended (p : Ppu) (val : Nat) :
    (update_ppuctrl p val).regs.ctrl = val ∧
    (update_ppuctrl p val).scroll_x = ((p.scroll_x &&& 0xff) ||| PpuCtrl.x_scroll_offset val) ∧
    (update_ppuctrl p val).scroll_y = ((p.scroll_y &&& 0xff) ||| PpuCtrl.y_scroll_offset val) ∧
    (update_ppuctrl p val).scroll_x % 256 = p.scroll_x % 256 := by
  refine ⟨rfl, rfl, rfl, ?_⟩
  show ((p.scroll_x &&& 0xff) ||| PpuCtrl.x_scroll_offset val) % 256 = p.scroll_x % 256
  unfold PpuCtrl.x_scroll_offset
  split
  · rw [Nat.or_zero, and_255, Nat.mod_mod_of_dvd _ (by norm_num)]
  · rw [and_255, Nat.or_comm]
    have h := Nat.mul_add_lt_is_or (b := p.scroll_x % 256) (i := 8)
      (by have := Nat.mod_lt p.scroll_x (y := 256) (by norm_num); omega) 1
    norm_num at h
    rw [← h]
    omega

theorem testBit_ff00 (i : Nat) : Nat.testBit 0xff00 i = decide (8 ≤ i ∧ i < 16) := by
  have e : (0xff00 : Nat) = 255 <<< 8 := by norm_num [Nat.shiftLeft_eq]
  have h255 : Nat.testBit 255 (i - 8) = decide (i - 8 < 8) := by
    have h := Nat.testBit_two_pow_sub_one 8 (i - 8)
    norm_num at h
    exact h
  rw [e, Nat.testBit_shiftLeft, h255]
  by_cases h8 : 8 ≤ i
  · by_cases h16 : i < 16
    · simp [h8, h16, show i - 8 < 8 from by omega]
    · simp [h8, h16, show ¬(i - 8 < 8) from by omega]
  · simp [h8]

theorem and_ff00 (b r : Nat) (hb : b < 256) (hr : r < 256) :
    (256 * b + r) &&& 0xff00 = 256 * b := by
  have hr' : r < 2 ^ 8 := by norm_num; exact hr
  apply Nat.eq_of_testBit_eq
  intro i
  have h1 := Nat.testBit_mul_pow_two_add b hr' i
  have h2 := Nat.testBit_mul_pow_two_add b (show (0:Nat) < 2 ^ 8 by norm_num) i
  norm_num at h1 h2
  rw [Nat.testBit_and, h1, h2, testBit_ff00]
  by_cases h8 : i < 8
  · simp [h8, show ¬(8 ≤ i ∧ i < 16) from by omega]
  · by_cases h16 : i < 16
    · simp [h8, show 8 ≤ i ∧ i < 16 from by omega]
    · have hb' : Nat.testBit b (i - 8) = false := by
        apply Nat.testBit_lt_two_pow
        calc b < 256 := hb
        _ = 2 ^ 8 := by norm_num
        _ ≤ 2 ^ (i - 8) := Nat.pow_le_pow_right (by norm_num) (by omega)
      simp [h8, hb', show ¬(8 ≤ i ∧ i < 16) from by omega]

theorem loadb_eq_some (v : Vram) (addr : Nat) (h : addr < 0x4000) :
    ∃ b, v.loadb addr = some b := by
  unfold Vram.loadb
  by_cases h1 : addr < 0x2000
  · exact ⟨_, by rw [if_pos h1]⟩
  · by_cases h2 : addr < 0x3f00
    · exact ⟨_, by rw [if_neg h1, if_pos h2]⟩
    · exact ⟨_, by rw [if_neg h1, if_neg h2, if_pos h]⟩

theorem loadv_eq {v : Vram} {addr b : Nat} (hb : v.loadb addr = some b) :
    v.loadv addr = b := by
  unfold Vram.loadv
  rw [hb]
  rfl

/-- C10: for every VRAM address a in the nametable range whose image under
XOR 0x800 is also in that range, storing byte v at a and loading at
a XOR 0x800 returns v: both addresses reach the same nametable cell through
the &&& 0x7FF mirroring. -/
theorem claim_c10_mirror (vm : Vram) (a v : Nat)
    (h1 : 0x2000 ≤ a) (h2 : a < 0x3f00)
    (h3 : 0x2000 ≤ a ^^^ 0x800) (h4 : a ^^^ 0x800 < 0x3f00) (h5 : v < 256) :
    Vram.loadb (Vram.storeb vm a v) (a ^^^ 0x800) = some v := by
  have hs : Vram.storeb vm a v =
      { vm with nametables := upd vm.nametables (a &&& 0x07ff) v } := by
    unfold Vram.storeb
    rw [if_neg (by omega), if_pos h2]
  rw [hs]
  unfold Vram.loadb
  rw [if_neg (by omega), if_pos h4, xor_800_and_7ff]
  simp [upd, Nat.mod_eq_of_lt h5]

theorem claim_c10_witness :
    ((0x2000 : Nat) ≤ 0x2000 ∧ (0x2000 : Nat) < 0x3f00 ∧
     (0x2000 : Nat) ≤ 0x2000 ^^^ 0x800 ∧ (0x2000 : Nat) ^^^ 0x800 < 0x3f00 ∧
     (0xab : Nat) < 256) ∧
    Vram.loadb (Vram.storeb vram0 0x2000 0xab) (0x2000 ^^^ 0x800) = some 0xab :=
  ⟨by decide,
   claim_c10_mirror vram0 0x2000 0xab (by decide) (by decide) (by decide) (by decide)
     (by decide)⟩

/-- C2: a load of register index 7 (PPUDATA) with the VRAM address below
0x3F00 returns the previously buffered byte and refills the buffer with the
freshly fetched byte; with the address in palette space (0x3F00-0x3FFF) it
returns the fetched byte directly and leaves the buffer alone; in both
cases the VRAM address advances by the ctrl-configured increment. -/
theorem claim_c2_ppudata (p : Ppu) (h : p.regs.addr.val < 0x4000) :
    ∃ ret p', read_ppudata p = some (ret, p') ∧
      p'.regs.addr.val =
        (p.regs.addr.val + PpuCtrl.vram_addr_increment p.regs.ctrl) % 65536 ∧
      (p.regs.addr.val < 0x3f00 →
        ret = p.ppudata_buffer ∧ p'.ppudata_buffer = p.vram.loadv p.regs.addr.val) ∧
      (0x3f00 ≤ p.regs.addr.val →
        ret = p.vram.loadv p.regs.addr.val ∧ p'.ppudata_buffer = p.ppudata_buffer) := by
  obtain ⟨b, hb⟩ := loadb_eq_some p.vram p.regs.addr.val h
  have hv := loadv_eq hb
  simp only [read_ppudata, hb]
  by_cases hlt : p.regs.addr.val < 0x3f00
  · rw [if_pos hlt]
    exact ⟨_, _, rfl, rfl, fun _ => ⟨rfl, by rw [hv]⟩, fun hge => absurd hlt (by omega)⟩
  · rw [if_neg hlt]
    exact ⟨_, _, rfl, rfl, fun hlt' => absurd hlt' hlt, fun _ => ⟨by rw [hv], rfl⟩⟩

theorem claim_c2_witness :
    ppu0.regs.addr.val < 0x4000 ∧
    (∃ ret p', read_ppudata ppu0 = some (ret, p') ∧
      p'.regs.addr.val =
        (ppu0.regs.addr.val + PpuCtrl.vram_addr_increment ppu0.regs.ctrl) % 65536 ∧
      (ppu0.regs.addr.val < 0x3f00 →
        ret = ppu0.ppudata_buffer ∧ p'.ppudata_buffer = ppu0.vram.loadv ppu0.regs.addr.val) ∧
      (0x3f00 ≤ ppu0.regs.addr.val →
        ret = ppu0.vram.loadv ppu0.regs.addr.val ∧
        p'.ppudata_buffer = ppu0.ppudata_buffer)) :=
  ⟨by decide, claim_c2_ppudata ppu0 (by decide)⟩

/-- C7: after a status-register read, regardless of the latches' prior
states, the next two scroll-register writes land in X then Y order and the
next two address-register writes land in high-byte then low-byte order. -/
theorem claim_c7_latches (p : Ppu) (a b c d : Nat) (hc : c < 256) (hd : d < 256) :
    ((update_ppuscroll (update_ppuscroll (read_ppustatus p).2 a) b).regs.scroll.x = a ∧
     (update_ppuscroll (update_ppuscroll (read_ppustatus p).2 a) b).regs.scroll.y = b) ∧
    (update_ppuaddr (update_ppuaddr (read_ppustatus p).2 c) d).regs.addr.val =
      256 * c + d := by
  refine ⟨⟨rfl, rfl⟩, ?_⟩
  show (((p.regs.addr.val &&& 0xff) ||| (c <<< 8)) &&& 0xff00) ||| d = 256 * c + d
  rw [and_255, Nat.shiftLeft_eq]
  norm_num
  have e3 : p.regs.addr.val % 256 ||| c * 256 = 256 * c + p.regs.addr.val % 256 := by
    rw [Nat.or_comm, Nat.mul_comm]
    have h := Nat.mul_add_lt_is_or (b := p.regs.addr.val % 256) (i := 8)
      (by have := Nat.mod_lt p.regs.addr.val (y := 256) (by norm_num); norm_num; omega) c
    norm_num at h
    exact h.symm
  rw [e3, and_ff00 c (p.regs.addr.val % 256) hc (Nat.mod_lt _ (by norm_num))]
  have h4 := Nat.mul_add_lt_is_or (b := d) (i := 8) (by norm_num; exact hd) c
  norm_num at h4
  exact h4.symm

theorem claim_c7_witness :
    ((0x12 : Nat) < 256 ∧ (0x34 : Nat) < 256) ∧
    (((update_ppuscroll (update_ppuscroll (read_ppustatus ppu0).2 3) 4).regs.scroll.x = 3 ∧
      (update_ppuscroll (update_ppuscroll (read_ppustatus ppu0).2 3) 4).regs.scroll.y = 4) ∧
     (update_ppuaddr (update_ppuaddr (read_ppustatus ppu0).2 0x12) 0x34).regs.addr.val =
       256 * 0x12 + 0x34) :=
  ⟨by decide, claim_c7_latches ppu0 3 4 0x12 0x34 (by decide) (by decide)⟩

theorem map_pad_set (found : List Nat) (i : Nat) :
    ∀ k, found.length < k →
    (found.map some ++ List.replicate (k - found.length) none).set found.length (some i)
      = (found ++ [i]).map some ++ List.replicate (k - (found.length + 1)) none := by
  induction found with
  | nil =>
    intro k hk
    cases k with
    | zero => omega
    | succ k' => simp [List.replicate_succ]
  | cons x t ih =>
    intro k hk
    cases k with
    | zero => omega
    | succ k' =>
      simp only [List.map_cons, List.cons_append, List.length_cons, Nat.succ_sub_succ,
        List.set_cons_succ]
      rw [ih k' (by simp only [List.length_cons] at hk; omega)]

theorem fill_slots_set (found : List Nat) (i : Nat) (h : found.length < 8) :
    (fill_slots found).set found.length (some i) = fill_slots (found ++ [i]) := by
  unfold fill_slots
  rw [List.length_append, List.length_singleton]
  exact map_pad_set found i 8 h

theorem cvs_aux_spec (p : Ppu) (L : List Nat) :
    ∀ found : List Nat, found.length ≤ 8 →
    cvs_aux p L found.length (fill_slots found) =
      (fill_slots ((found ++ L.filter (fun i =>
          Sprite.on_scanline (make_sprite_info p i) p (p.scanline % 256))).take 8),
       if 9 ≤ found.length + (L.filter (fun i =>
          Sprite.on_scanline (make_sprite_info p i) p (p.scanline % 256))).length
       then { p with regs := { p.regs with
              status := PpuStatus.set_sprite_overflow p.regs.status true } }
       else p) := by
  induction L with
  | nil =>
    intro found hle
    simp only [cvs_aux, List.filter_nil, List.append_nil, List.length_nil, Nat.add_zero]
    rw [List.take_of_length_le hle, if_neg (by omega)]
  | cons i rest ih =>
    intro found hle
    simp only [cvs_aux, List.filter_cons]
    by_cases hq : Sprite.on_scanline (make_sprite_info p i) p (p.scanline % 256) = true
    · rw [if_pos hq, if_pos hq]
      by_cases h8 : found.length < 8
      · rw [if_pos h8, fill_slots_set found i h8,
            show found.length + 1 = (found ++ [i]).length from by simp,
            ih (found ++ [i]) (by simp; omega)]
        have e1 : (found ++ [i]) ++ List.filter (fun i =>
            Sprite.on_scanline (make_sprite_info p i) p (p.scanline % 256)) rest
            = found ++ i :: List.filter (fun i =>
            Sprite.on_scanline (make_sprite_info p i) p (p.scanline % 256)) rest := by
          simp
        have e2 : (found ++ [i]).length + (List.filter (fun i =>
            Sprite.on_scanline (make_sprite_info p i) p (p.scanline % 256)) rest).length
            = found.length + (i :: List.filter (fun i =>
            Sprite.on_scanline (make_sprite_info p i) p (p.scanline % 256)) rest).length := by
          simp
          omega
        rw [e1, e2]
      · rw [if_neg h8]
        have h8' : found.length = 8 := by omega
        simp only [Prod.mk.injEq]
        constructor
        · rw [List.take_left' h8']
        · rw [if_pos (by simp only [List.length_cons]; omega)]
    · rw [if_neg hq, if_neg hq]
      exact ih found hle

/-- C5: for every scanline evaluation, if at least nine OAM sprites (in
slot order 0..63) satisfy `on_scanline`, the sprite-overflow status flag is
set (bit 5) and the result holds the first eight qualifying slot indices in
slot order; with eight or fewer qualifiers the evaluation leaves the state
(and hence the overflow flag) untouched and returns all qualifiers in slot
order, padded with `none`. -/
theorem claim_c5_overflow (p : Ppu) :
    (9 ≤ (qualifying_sprites p).length →
      (compute_visible_sprites p).2 =
        { p with regs := { p.regs with
            status := PpuStatus.set_sprite_overflow p.regs.status true } } ∧
      Nat.testBit (compute_visible_sprites p).2.regs.status 5 = true ∧
      (compute_visible_sprites p).1 = ((qualifying_sprites p).take 8).map some) ∧
    ((qualifying_sprites p).length ≤ 8 →
      (compute_visible_sprites p).2 = p ∧
      (compute_visible_sprites p).1 = fill_slots (qualifying_sprites p)) := by
  have h := cvs_aux_spec p (List.range 64) [] (by simp)
  simp only [List.nil_append, List.length_nil, Nat.zero_add] at h
  have hc : compute_visible_sprites p =
      (fill_slots ((qualifying_sprites p).take 8),
       if 9 ≤ (qualifying_sprites p).length
       then { p with regs := { p.regs with
              status := PpuStatus.set_sprite_overflow p.regs.status true } }
       else p) := h
  constructor
  · intro h9
    rw [hc]
    rw [if_pos h9]
    refine ⟨rfl, ?_, ?_⟩
    · show Nat.testBit (PpuStatus.set_sprite_overflow p.regs.status true) 5 = true
      unfold PpuStatus.set_sprite_overflow
      simp [Nat.testBit_or, (by decide : Nat.testBit 0x20 5 = true)]
    · show fill_slots ((qualifying_sprites p).take 8) = _
      unfold fill_slots
      rw [show ((qualifying_sprites p).take 8).length = 8 from by
            rw [List.length_take]; omega]
      simp
  · intro h8
    rw [hc, if_neg (by omega)]
    exact ⟨rfl, by rw [List.take_of_length_le h8]⟩

theorem claim_c5_witness :
    9 ≤ (qualifying_sprites ppuC5).length ∧
    ((compute_visible_sprites ppuC5).2 =
      { ppuC5 with regs := { ppuC5.regs with
          status := PpuStatus.set_sprite_overflow ppuC5.regs.status true } } ∧
     Nat.testBit (compute_visible_sprites ppuC5).2.regs.status 5 = true ∧
     (compute_visible_sprites ppuC5).1 = ((qualifying_sprites ppuC5).take 8).map some) :=
  ⟨by decide, (claim_c5_overflow ppuC5).1 (by decide)⟩

theorem cvs_aux_snd (p : Ppu) (L : List Nat) :
    ∀ count res, (cvs_aux p L count res).2 = p ∨
      (cvs_aux p L count res).2 =
        { p with regs := { p.regs with
            status := PpuStatus.set_sprite_overflow p.regs.status true } } := by
  induction L with
  | nil => intro count res; left; rfl
  | cons i rest ih =>
    intro count res
    simp only [cvs_aux]
    by_cases hq : Sprite.on_scanline (make_sprite_info p i) p (p.scanline % 256) = true
    · rw [if_pos hq]
      by_cases h8 : count < 8
      · rw [if_pos h8]; exact ih _ _
      · rw [if_neg h8]; right; rfl
    · rw [if_neg hq]; exact ih _ _

theorem set_overflow_testBit7 (s : Nat) :
    Nat.testBit (PpuStatus.set_sprite_overflow s true) 7 = Nat.testBit s 7 := by
  unfold PpuStatus.set_sprite_overflow
  simp [Nat.testBit_or, (by decide : Nat.testBit 0x20 7 = false)]

theorem szh_or (s : Nat) :
    PpuStatus.set_sprite_zero_hit s true ||| 0x40 = s ||| 0x40 := by
  unfold PpuStatus.set_sprite_zero_hit
  rw [if_pos rfl, Nat.or_assoc, Nat.or_self]

theorem or_forty_testBit7 (a b : Nat) (hab : a ||| 0x40 = b ||| 0x40) :
    a.testBit 7 = b.testBit 7 := by
  have hc := congrArg (fun x => Nat.testBit x 7) hab
  simpa [Nat.testBit_or, (by decide : Nat.testBit 0x40 7 = false)] using hc

set_option maxHeartbeats 1000000 in
theorem get_sprite_pixel_inv (p : Ppu) (vs : List (Option Nat)) (x : Nat) (bo : Bool)
    (o : Option SpriteColor) (q : Ppu)
    (h : get_sprite_pixel p vs x bo = some (o, q)) :
    q.scanline = p.scanline ∧ q.cy = p.cy ∧ q.regs.mask = p.regs.mask ∧
    q.regs.ctrl = p.regs.ctrl ∧
    q.regs.status ||| 0x40 = p.regs.status ||| 0x40 := by
  induction vs with
  | nil =>
    simp only [get_sprite_pixel, Option.some.injEq, Prod.mk.injEq] at h
    obtain ⟨-, hq⟩ := h
    subst hq
    exact ⟨rfl, rfl, rfl, rfl, rfl⟩
  | cons head rest ih =>
    cases head with
    | none =>
      simp only [get_sprite_pixel, Option.some.injEq, Prod.mk.injEq] at h
      obtain ⟨-, hq⟩ := h
      subst hq
      exact ⟨rfl, rfl, rfl, rfl, rfl⟩
    | some index =>
      simp only [get_sprite_pixel] at h
      repeat' split at h
      all_goals
        first
          | exact ih h
          | exact Option.noConfusion h
          | (simp only [Option.some.injEq, Prod.mk.injEq] at h
             obtain ⟨-, hq⟩ := h
             subst hq
             first
               | exact ⟨rfl, rfl, rfl, rfl, rfl⟩
               | exact ⟨rfl, rfl, rfl, rfl, szh_or _⟩)

theorem render_pixel_inv (vs : List (Option Nat)) (bd : Rgb) (p : Ppu) (x : Nat) (q : Ppu)
    (h : render_pixel vs bd p x = some q) :
    q.scanline = p.scanline ∧ q.cy = p.cy ∧ q.regs.mask = p.regs.mask ∧
    q.regs.ctrl = p.regs.ctrl ∧
    q.regs.status ||| 0x40 = p.regs.status ||| 0x40 := by
  simp only [render_pixel] at h
  split at h
  · exact Option.noConfusion h
  · rename_i sc p1 heq
    simp only [Option.some.injEq] at h
    subst h
    split at heq
    · obtain ⟨a1, a2, a3, a4, a5⟩ := get_sprite_pixel_inv p vs _ _ _ _ heq
      exact ⟨a1, a2, a3, a4, a5⟩
    · simp only [Option.some.injEq, Prod.mk.injEq] at heq
      obtain ⟨-, hq⟩ := heq
      subst hq
      exact ⟨rfl, rfl, rfl, rfl, rfl⟩

theorem render_loop_inv (vs : List (Option Nat)) (bd : Rgb) :
    ∀ (xs : List Nat) (p q : Ppu), render_loop vs bd p xs = some q →
      q.scanline = p.scanline ∧ q.cy = p.cy ∧ q.regs.mask = p.regs.mask ∧
      q.regs.ctrl = p.regs.ctrl ∧
      q.regs.status ||| 0x40 = p.regs.status ||| 0x40 := by
  intro xs
  induction xs with
  | nil =>
    intro p q h
    simp only [render_loop, Option.some.injEq] at h
    subst h
    exact ⟨rfl, rfl, rfl, rfl, rfl⟩
  | cons x xs ih =>
    intro p q h
    simp only [render_loop] at h
    split at h
    · exact Option.noConfusion h
    · rename_i p1 heq
      obtain ⟨a1, a2, a3, a4, a5⟩ := render_pixel_inv vs bd p x p1 heq
      obtain ⟨b1, b2, b3, b4, b5⟩ := ih p1 q h
      exact ⟨b1.trans a1, b2.trans a2, b3.trans a3, b4.trans a4, b5.trans a5⟩

theorem render_scanline_inv (p q : Ppu) (h : render_scanline p = some q) :
    q.scanline = p.scanline ∧ q.cy = p.cy ∧ q.regs.mask = p.regs.mask ∧
    q.regs.ctrl = p.regs.ctrl ∧
    q.regs.status.testBit 7 = p.regs.status.testBit 7 := by
  simp only [render_scanline, compute_visible_sprites] at h
  have hl := render_loop_inv _ _ _ _ _ h
  rcases cvs_aux_snd p (List.range 64) 0 (List.replicate 8 none) with hs | hs <;>
    rw [hs] at hl
  · obtain ⟨h1, h2, h3, h4, h5⟩ := hl
    exact ⟨h1, h2, h3, h4, or_forty_testBit7 _ _ h5⟩
  · obtain ⟨h1, h2, h3, h4, h5⟩ := hl
    refine ⟨h1, h2, h3, h4, ?_⟩
    rw [or_forty_testBit7 _ _ h5]
    exact set_overflow_testBit7 _

theorem scanline_advance_spec (p : Ppu) (r : StepResult) :
    (scanline_advance p r).1.scanline = sl_next p.scanline ∧
    (scanline_advance p r).1.cy = p.cy ∧
    (scanline_advance p r).1.regs.mask = p.regs.mask ∧
    (scanline_advance p r).1.regs.ctrl = p.regs.ctrl ∧
    (scanline_advance p r).1.regs.status.testBit 7 =
      vb_next p.scanline (p.regs.status.testBit 7) ∧
    (scanline_advance p r).2.new_frame =
      (r.new_frame || decide ((p.scanline + 1) % 65536 = LAST_SCANLINE)) := by
  have hset : ∀ s : Nat,
      Nat.testBit (PpuStatus.set_sprite_zero_hit (PpuStatus.set_in_vblank s true) false) 7
        = true := by
    intro s
    unfold PpuStatus.set_sprite_zero_hit PpuStatus.set_in_vblank
    simp [Nat.testBit_and, Nat.testBit_or,
      (by decide : Nat.testBit 128 7 = true), (by decide : Nat.testBit 191 7 = true)]
  have hclr : ∀ s : Nat, Nat.testBit (PpuStatus.set_in_vblank s false) 7 = false := by
    intro s
    unfold PpuStatus.set_in_vblank
    simp [Nat.testBit_and, (by decide : Nat.testBit 127 7 = false)]
  simp only [scanline_advance, start_vblank, sl_next, vb_next, VBLANK_SCANLINE,
    LAST_SCANLINE]
  split_ifs <;>
    first
      | (exfalso; omega)
      | (refine ⟨rfl, rfl, rfl, rfl, ?_, ?_⟩ <;> simp [hset, hclr, *])

theorem step_body_spec (p : Ppu) (r : StepResult) (p1 : Ppu) (r1 : StepResult)
    (h : step_body p r = some (p1, r1)) :
    p1.scanline = sl_next p.scanline ∧
    p1.cy = p.cy + CYCLES_PER_SCANLINE ∧
    p1.regs.mask = p.regs.mask ∧
    p1.regs.ctrl = p.regs.ctrl ∧
    p1.regs.status.testBit 7 = vb_next p.scanline (p.regs.status.testBit 7) ∧
    r1.new_frame = (r.new_frame || decide ((p.scanline + 1) % 65536 = LAST_SCANLINE)) := by
  simp only [step_body] at h
  split at h
  · exact Option.noConfusion h
  · rename_i p2 heq
    have hinv : p2.scanline = p.scanline ∧ p2.cy = p.cy ∧ p2.regs.mask = p.regs.mask ∧
        p2.regs.ctrl = p.regs.ctrl ∧
        p2.regs.status.testBit 7 = p.regs.status.testBit 7 := by
      split at heq
      · exact render_scanline_inv p p2 heq
      · simp only [Option.some.injEq] at heq
        subst heq
        exact ⟨rfl, rfl, rfl, rfl, rfl⟩
    obtain ⟨i1, i2, i3, i4, i5⟩ := hinv
    simp only [Option.some.injEq, Prod.mk.injEq] at h
    obtain ⟨hp1, hr1⟩ := h
    subst hp1 hr1
    obtain ⟨s1, s2, s3, s4, s5, s6⟩ := scanline_advance_spec p2 r
    refine ⟨?_, ?_, ?_, ?_, ?_, ?_⟩
    · show (scanline_advance p2 r).1.scanline = _
      rw [s1, i1]
    · show (scanline_advance p2 r).1.cy + CYCLES_PER_SCANLINE = _
      rw [s2, i2]
    · show (scanline_advance p2 r).1.regs.mask = _
      rw [s3, i3]
    · show (scanline_advance p2 r).1.regs.ctrl = _
      rw [s4, i4]
    · show (scanline_advance p2 r).1.regs.status.testBit 7 = _
      rw [s5, i1, i5]
    · rw [s6, i1]

theorem step_go_succ (fuel run_to_cycle : Nat) (p : Ppu) (r : StepResult) :
    step_go (fuel + 1) run_to_cycle p r =
      if p.cy + CYCLES_PER_SCANLINE > run_to_cycle then some (p, r)
      else match step_body p r with
        | none => none
        | some (p1, r1) => step_go fuel run_to_cycle p1 r1 := rfl

theorem step_one (p p' : Ppu) (r : StepResult)
    (h : step p (p.cy + CYCLES_PER_SCANLINE) = some (p', r)) :
    p'.scanline = sl_next p.scanline ∧
    p'.cy = p.cy + CYCLES_PER_SCANLINE ∧
    p'.regs.mask = p.regs.mask ∧
    p'.regs.ctrl = p.regs.ctrl ∧
    p'.regs.status.testBit 7 = vb_next p.scanline (p.regs.status.testBit 7) ∧
    r.new_frame = decide ((p.scanline + 1) % 65536 = LAST_SCANLINE) := by
  unfold step at h
  rw [show p.cy + CYCLES_PER_SCANLINE + 1 - p.cy = 114 + 1 from by
        unfold CYCLES_PER_SCANLINE; omega,
      step_go_succ, if_neg (by omega)] at h
  split at h
  · exact Option.noConfusion h
  · rename_i p1 r1 hb
    obtain ⟨b1, b2, b3, b4, b5, b6⟩ :=
      step_body_spec p { new_frame := false, vblank_nmi := false } p1 r1 hb
    rw [show (114 : Nat) = 113 + 1 from rfl, step_go_succ,
        if_pos (by rw [b2]; unfold CYCLES_PER_SCANLINE; omega)] at h
    simp only [Option.some.injEq, Prod.mk.injEq] at h
    obtain ⟨hp, hr⟩ := h
    subst hp hr
    refine ⟨b1, b2, b3, b4, b5, ?_⟩
    rw [b6]
    simp

theorem sl_at_shift (s : Nat) : ∀ j, sl_at (sl_next s) j = sl_at s (j + 1) := by
  intro j
  induction j with
  | zero => rfl
  | succ j ih =>
    show sl_next (sl_at (sl_next s) j) = sl_next (sl_at s (j + 1))
    rw [ih]

theorem vb_at_shift (s : Nat) (b : Bool) :
    ∀ j, vb_at (sl_next s) (vb_next s b) j = vb_at s b (j + 1) := by
  intro j
  induction j with
  | zero => rfl
  | succ j ih =>
    show vb_next (sl_at (sl_next s) j) (vb_at (sl_next s) (vb_next s b) j)
        = vb_next (sl_at s (j + 1)) (vb_at s b (j + 1))
    rw [ih, sl_at_shift]

theorem frame_trace_spec :
    ∀ (n : Nat) (p : Ppu) (l : List (StepResult × Bool)),
      frame_trace p n = some l →
      l.length = n ∧
      ∀ j, j < n →
        (l.getD j trace_dflt).1.new_frame
            = decide ((sl_at p.scanline j + 1) % 65536 = LAST_SCANLINE) ∧
        (l.getD j trace_dflt).2 = vb_at p.scanline (p.regs.status.testBit 7) (j + 1) := by
  intro n
  induction n with
  | zero =>
    intro p l h
    simp only [frame_trace, Option.some.injEq] at h
    subst h
    exact ⟨rfl, fun j hj => absurd hj (by omega)⟩
  | succ n ih =>
    intro p l h
    simp only [frame_trace] at h
    split at h
    · exact Option.noConfusion h
    · rename_i p1 r hs
      split at h
      · exact Option.noConfusion h
      · rename_i rest ht
        simp only [Option.some.injEq] at h
        subst h
        obtain ⟨o1, o2, o3, o4, o5, o6⟩ := step_one p p1 r hs
        obtain ⟨hlen, hspec⟩ := ih p1 rest ht
        refine ⟨by simp [hlen], ?_⟩
        intro j hj
        cases j with
        | zero => exact ⟨o6, o5⟩
        | succ j' =>
          have hj' : j' < n := by omega
          obtain ⟨e1, e2⟩ := hspec j' hj'
          constructor
          · show (rest.getD j' trace_dflt).1.new_frame = _
            rw [e1, o1, sl_at_shift]
          · show (rest.getD j' trace_dflt).2 = _
            rw [e2, o1, o5, vb_at_shift]

theorem sl_at_zero_small : ∀ j, j ≤ 260 → sl_at 0 j = j := by
  intro j
  induction j with
  | zero => intro _; rfl
  | succ j ih =>
    intro hj
    show sl_next (sl_at 0 j) = j + 1
    rw [ih (by omega)]
    unfold sl_next LAST_SCANLINE
    rw [if_neg (by omega)]
    omega

theorem sl_at_261 : sl_at 0 261 = 0 := by
  show sl_next (sl_at 0 260) = 0
  rw [sl_at_zero_small 260 (by omega)]
  unfold sl_next LAST_SCANLINE
  rw [if_pos (by omega)]

theorem vb_at_closed : ∀ k, k ≤ 262 → vb_at 0 false k = decide (241 ≤ k ∧ k ≤ 260) := by
  intro k
  induction k with
  | zero => intro _; rfl
  | succ k ih =>
    intro hk
    show vb_next (sl_at 0 k) (vb_at 0 false k) = _
    rw [ih (by omega)]
    by_cases hk260 : k ≤ 260
    · rw [sl_at_zero_small k hk260]
      unfold vb_next VBLANK_SCANLINE LAST_SCANLINE
      by_cases h241 : k + 1 = 241
      · rw [if_pos (by omega)]
        have hp : 241 ≤ k + 1 ∧ k + 1 ≤ 260 := by omega
        simp [hp] <;> omega
      · by_cases h261 : k + 1 = 261
        · rw [if_neg (by omega), if_pos (by omega)]
          have hp : ¬(241 ≤ k + 1 ∧ k + 1 ≤ 260) := by omega
          simp [hp] <;> omega
        · rw [if_neg (by omega), if_neg (by omega)]
          rcases Nat.lt_or_ge k 241 with hr | hr
          · have e1 : ¬(241 ≤ k ∧ k ≤ 260) := by omega
            have e2 : ¬(241 ≤ k + 1 ∧ k + 1 ≤ 260) := by omega
            simp [e1, e2] <;> omega
          · have e1 : 241 ≤ k ∧ k ≤ 260 := by omega
            have e2 : 241 ≤ k + 1 ∧ k + 1 ≤ 260 := by omega
            simp [e1, e2] <;> omega
    · have hk' : k = 261 := by omega
      subst hk'
      rw [sl_at_261]
      unfold vb_next VBLANK_SCANLINE LAST_SCANLINE
      rw [if_neg (by omega), if_neg (by omega)]
      have e1 : ¬((241 : Nat) ≤ 261 ∧ (261 : Nat) ≤ 260) := by omega
      have e2 : ¬((241 : Nat) ≤ 262 ∧ (262 : Nat) ≤ 260) := by omega
      simp [e1, e2] <;> omega

/-- C6: starting from a frame-boundary state (scanline 0, cycle counter a
multiple of the per-scanline quantum, vblank flag clear), driving `step`
across exactly one full frame (262 calls of one scanline quantum each)
yields exactly one result with frame completion: the list of call indices
reporting `new_frame` is exactly [260]; the vblank status flag rises
exactly once, at call index 240; and the vblank entry (240) strictly
precedes the frame completion (260). -/
theorem claim_c6_frame (p : Ppu) (h0 : p.scanline = 0)
    (hq : p.cy % CYCLES_PER_SCANLINE = 0)
    (hv : p.regs.status.testBit 7 = false)
    (l : List (StepResult × Bool)) (htr : frame_trace p 262 = some l) :
    new_frame_idxs l = [260] ∧
    vblank_rises (p.regs.status.testBit 7) l = [240] ∧
    ∀ i k, i ∈ vblank_rises (p.regs.status.testBit 7) l → k ∈ new_frame_idxs l →
      i < k := by
  obtain ⟨hlen, hsp⟩ := frame_trace_spec 262 p l htr
  rw [h0, hv] at hsp
  have hnf : ∀ j, j < 262 → (l.getD j trace_dflt).1.new_frame = decide (j = 260) := by
    intro j hj
    rw [(hsp j hj).1]
    by_cases hj260 : j ≤ 260
    · rw [sl_at_zero_small j hj260]
      unfold LAST_SCANLINE
      rw [decide_eq_decide]
      omega
    · have hj' : j = 261 := by omega
      subst hj'
      rw [sl_at_261]
      unfold LAST_SCANLINE
      rw [decide_eq_decide]
      omega
  have hvb : ∀ j, j < 262 → (l.getD j trace_dflt).2 = decide (240 ≤ j ∧ j ≤ 259) := by
    intro j hj
    rw [(hsp j hj).2, vb_at_closed (j + 1) (by omega), decide_eq_decide]
    omega
  have e1 : new_frame_idxs l = [260] := by
    unfold new_frame_idxs
    rw [hlen,
        List.filter_congr (fun j hj => hnf j (List.mem_range.mp hj))]
    decide
  have e2 : vblank_rises (p.regs.status.testBit 7) l = [240] := by
    unfold vblank_rises
    rw [hv, hlen]
    have hagree : ∀ j ∈ List.range 262,
        ((l.getD j trace_dflt).2 &&
          !(if j = 0 then false else (l.getD (j - 1) trace_dflt).2))
        = (decide (240 ≤ j ∧ j ≤ 259) &&
          !(if j = 0 then false else decide (240 ≤ j - 1 ∧ j - 1 ≤ 259))) := by
      intro j hj
      have hjlt := List.mem_range.mp hj
      rw [hvb j hjlt]
      by_cases hj0 : j = 0
      · subst hj0
        simp
      · rw [if_neg hj0, if_neg hj0, hvb (j - 1) (by omega)]
    rw [List.filter_congr hagree]
    decide
  refine ⟨e1, e2, ?_⟩
  intro i k hi hk
  rw [e2] at hi
  rw [e1] at hk
  simp only [List.mem_singleton] at hi hk
  omega

theorem render_pixel_total (vs : List (Option Nat)) (bd : Rgb) (p : Ppu) (x : Nat)
    (h : PpuMask.show_sprites p.regs.mask = false) :
    ∃ q, render_pixel vs bd p x = some q ∧ q.regs = p.regs := by
  simp only [render_pixel]
  have hs : (if PpuMask.show_sprites p.regs.mask = true
      then get_sprite_pixel p vs (x % 256)
        (if PpuMask.show_background p.regs.mask = true
         then get_background_pixel p (x % 256) else none).isSome
      else some (none, p)) = some (none, p) := if_neg (by simp [h])
  rw [hs]
  exact ⟨_, rfl, rfl⟩

theorem render_loop_total (vs : List (Option Nat)) (bd : Rgb) :
    ∀ (xs : List Nat) (p : Ppu), PpuMask.show_sprites p.regs.mask = false →
      ∃ q, render_loop vs bd p xs = some q ∧ q.regs.mask = p.regs.mask := by
  intro xs
  induction xs with
  | nil => intro p _; exact ⟨p, rfl, rfl⟩
  | cons x xs ih =>
    intro p h
    obtain ⟨q1, hq1, hr1⟩ := render_pixel_total vs bd p x h
    obtain ⟨q2, hq2, hm2⟩ := ih q1 (by rw [hr1]; exact h)
    refine ⟨q2, ?_, by rw [hm2, hr1]⟩
    simp only [render_loop]
    rw [hq1]
    exact hq2

theorem render_scanline_total (p : Ppu) (h : PpuMask.show_sprites p.regs.mask = false) :
    ∃ q, render_scanline p = some q ∧ q.regs.mask = p.regs.mask := by
  simp only [render_scanline, compute_visible_sprites]
  have hm : (cvs_aux p (List.range 64) 0 (List.replicate 8 none)).2.regs.mask
      = p.regs.mask := by
    rcases cvs_aux_snd p (List.range 64) 0 (List.replicate 8 none) with hs | hs <;> rw [hs]
  obtain ⟨q, hq, hqm⟩ := render_loop_total
    (cvs_aux p (List.range 64) 0 (List.replicate 8 none)).1
    (backdrop_color (cvs_aux p (List.range 64) 0 (List.replicate 8 none)).2)
    (List.range SCREEN_WIDTH)
    (cvs_aux p (List.range 64) 0 (List.replicate 8 none)).2
    (by rw [hm]; exact h)
  exact ⟨q, hq, by rw [hqm, hm]⟩

theorem step_body_total (p : Ppu) (r : StepResult)
    (h : PpuMask.show_sprites p.regs.mask = false) :
    ∃ p1 r1, step_body p r = some (p1, r1) ∧
      PpuMask.show_sprites p1.regs.mask = false := by
  unfold step_body
  by_cases hsl : p.scanline < SCREEN_HEIGHT
  · rw [if_pos hsl]
    obtain ⟨q, hq, hqm⟩ := render_scanline_total p h
    rw [hq]
    refine ⟨_, _, rfl, ?_⟩
    have hs := (scanline_advance_spec q r).2.2.1
    show PpuMask.show_sprites (scanline_advance q r).1.regs.mask = false
    rw [hs, hqm]
    exact h
  · rw [if_neg hsl]
    refine ⟨_, _, rfl, ?_⟩
    have hs := (scanline_advance_spec p r).2.2.1
    show PpuMask.show_sprites (scanline_advance p r).1.regs.mask = false
    rw [hs]
    exact h

theorem step_go_total :
    ∀ (fuel run_to_cycle : Nat) (p : Ppu) (r : StepResult),
      PpuMask.show_sprites p.regs.mask = false →
      ∃ p1 r1, step_go fuel run_to_cycle p r = some (p1, r1) ∧
        PpuMask.show_sprites p1.regs.mask = false := by
  intro fuel
  induction fuel with
  | zero => intro run p r h; exact ⟨p, r, rfl, h⟩
  | succ fuel ih =>
    intro run p r h
    rw [step_go_succ]
    by_cases hbreak : p.cy + CYCLES_PER_SCANLINE > run
    · rw [if_pos hbreak]
      exact ⟨p, r, rfl, h⟩
    · rw [if_neg hbreak]
      obtain ⟨p1, r1, hb, h1⟩ := step_body_total p r h
      obtain ⟨p2, r2, hgo, h2⟩ := ih run p1 r1 h1
      rw [hb]
      exact ⟨p2, r2, hgo, h2⟩

theorem frame_trace_total :
    ∀ (n : Nat) (p : Ppu), PpuMask.show_sprites p.regs.mask = false →
      ∃ l, frame_trace p n = some l := by
  intro n
  induction n with
  | zero => intro p _; exact ⟨[], rfl⟩
  | succ n ih =>
    intro p h
    obtain ⟨p1, r1, hs, h1⟩ := step_go_total (p.cy + CYCLES_PER_SCANLINE + 1 - p.cy)
      (p.cy + CYCLES_PER_SCANLINE) p { new_frame := false, vblank_nmi := false } h
    obtain ⟨l, hl⟩ := ih p1 h1
    refine ⟨(r1, p1.regs.status.testBit 7) :: l, ?_⟩
    simp only [frame_trace, step]
    rw [hs]
    show (match frame_trace p1 n with
          | none => none
          | some rest => some ((r1, p1.regs.status.testBit 7) :: rest))
        = some ((r1, p1.regs.status.testBit 7) :: l)
    rw [hl]

theorem claim_c6_witness :
    (ppu0.scanline = 0 ∧ ppu0.cy % CYCLES_PER_SCANLINE = 0 ∧
     ppu0.regs.status.testBit 7 = false) ∧
    ∃ l, frame_trace ppu0 262 = some l ∧
      (new_frame_idxs l = [260] ∧
       vblank_rises (ppu0.regs.status.testBit 7) l = [240] ∧
       ∀ i k, i ∈ vblank_rises (ppu0.regs.status.testBit 7) l →
         k ∈ new_frame_idxs l → i < k) := by
  refine ⟨⟨rfl, rfl, by decide⟩, ?_⟩
  obtain ⟨l, hl⟩ := frame_trace_total 262 ppu0 (by decide)
  exact ⟨l, hl, claim_c6_frame ppu0 rfl rfl (by decide) l hl⟩
